import Mathlib

/-!
Verification of the scoring/decision core of the studio repository.

The development shallowly embeds the four modules the specification covers:

* `src/src/lib/harmonic-field.ts` — deterministic text-to-vector embedding
  (`stringToHarmonicVector`, `hashString`, `harmonicSimilarity`,
  `calculatePatternMatchConfidence`);
* the ResonanceEngine module (`measureResonance`, `shouldCrystallize`);
* the StateManager module (`checkCrystallization`);
* `src/lib/prz/gooseguard.ts` (`detectLoop`, `calculateActionSimilarity`);
* `src/src/ai/flows/prz-validation.ts` (`searchZakEchoRegistry`) together
  with the registry data of `src/src/lib/zak-echoes.ts`.

JavaScript numbers are modelled by real numbers, 32-bit integer coercion
(`x | x`, `<< 5`) by explicit arithmetic modulo `2 ^ 32`, thrown exceptions
by `Except String`, and `Date.now()` by an explicit `now` parameter.
Strings are compared code-point-wise; the sources only ever hash and split
plain text, for which Lean characters coincide with UTF-16 code units.
-/

/-! ## JavaScript primitives shared by several modules -/

/-- Coerce an integer to the range of a 32-bit two's-complement integer,
modelling the JavaScript `ToInt32` conversion performed by `x & x` and by
the shift in `x << 5`. -/
def toInt32 (x : ℤ) : ℤ :=
  let y := x % 4294967296
  if 2147483648 ≤ y then y - 4294967296 else y

/-- One step of the hash loop of `hashString` in `harmonic-field.ts`:
`hash = ((hash << 5) - hash) + char; hash = hash & hash`.  The shift result
is an int32, the subtraction and addition are exact, and the final `& hash`
coerces back to int32. -/
def hashStep (h : ℤ) (c : ℕ) : ℤ :=
  toInt32 (toInt32 (h * 32) - h + c)

/-- The deterministic string hash of `harmonic-field.ts` (`hashString`):
fold `hashStep` over the UTF-16 code units, then `Math.abs`. -/
def hashString (s : String) : ℕ :=
  (s.data.foldl (fun h c => hashStep h c.toNat) 0).natAbs

/-- Split a string the way the JavaScript regular expression split
`str.split(/\s+/)` does: maximal whitespace runs separate the pieces, a
leading run contributes a leading empty piece, a trailing run a trailing
empty piece, and the empty string yields `[""]`.  The flag `inWs` records
whether the scanner is inside a whitespace run. -/
def jsSplitWsAux (inWs : Bool) (acc : List Char) : List Char → List String
  | [] => [String.mk acc.reverse]
  | c :: cs =>
    if c.isWhitespace then
      if inWs then jsSplitWsAux true acc cs
      else String.mk acc.reverse :: jsSplitWsAux true [] cs
    else jsSplitWsAux false (c :: acc) cs

/-- Model of `str.split(/\s+/)`. -/
def jsSplitWS (s : String) : List String :=
  jsSplitWsAux false [] s.data

/-- Model of `str.toLowerCase()`: lower-case each character (the sources
only lower-case ASCII text).  This equals `String.toLower`, but is defined
by a structural map over the characters. -/
def jsToLower (s : String) : String :=
  String.mk (s.data.map Char.toLower)

/-! ## PatternEmbedder (`harmonic-field.ts`) -/

/-- A complex number in polar form (`ComplexPolar` in `harmonic-field.ts`). -/
structure ComplexPolar where
  magnitude : ℝ
  phase : ℝ

/-- Constant `MAGNITUDE_BASE` of `harmonic-field.ts`. -/
noncomputable def MAGNITUDE_BASE : ℝ := 0.5

/-- Constant `MAGNITUDE_SCALE` of `harmonic-field.ts`. -/
def MAGNITUDE_SCALE : ℕ := 500

/-- Constant `PHASE_SCALE` of `harmonic-field.ts`. -/
def PHASE_SCALE : ℕ := 10000

/-- Constant `HARMONIC_SIMILARITY_WEIGHT` of `harmonic-field.ts`. -/
noncomputable def HARMONIC_SIMILARITY_WEIGHT : ℝ := 0.7

/-- Constant `KEYWORD_MATCH_WEIGHT` of `harmonic-field.ts`. -/
noncomputable def KEYWORD_MATCH_WEIGHT : ℝ := 0.3

/-- The embedding `stringToHarmonicVector(text, dim)` of `harmonic-field.ts`.
The loop `for (let i = 0; i < dim; i++)` runs `max dim 0` times, so a
non-positive `dim` produces the empty vector; the function has no failure
branch in the source. -/
noncomputable def stringToHarmonicVector (text : String) (dim : ℤ) : List ComplexPolar :=
  (List.range dim.toNat).map fun i =>
    let seed := hashString (text ++ toString i)
    { magnitude := MAGNITUDE_BASE + ((seed % MAGNITUDE_SCALE : ℕ) : ℝ) / 1000
      phase := ((seed % PHASE_SCALE : ℕ) : ℝ) / (PHASE_SCALE : ℝ) * (2 * Real.pi) - Real.pi }

/-- The per-dimension body of the similarity loop of `harmonicSimilarity`. -/
noncomputable def harmonicSimilarityTerm (e₁ e₂ : ComplexPolar) : ℝ :=
  let magDiff := |e₁.magnitude - e₂.magnitude|
  let magSim := 1 - min magDiff 1
  let phaseDiff := |e₁.phase - e₂.phase|
  let circularDiff := min phaseDiff (2 * Real.pi - phaseDiff)
  let phaseSim := 1 - circularDiff / Real.pi
  magSim * 0.5 + phaseSim * 0.5

/-- The accumulated loop of `harmonicSimilarity` divided by the dimension. -/
noncomputable def harmonicSimilarityCore (v₁ v₂ : List ComplexPolar) : ℝ :=
  (List.zipWith harmonicSimilarityTerm v₁ v₂).sum / (v₁.length : ℝ)

/-- `harmonicSimilarity(vector1, vector2)` of `harmonic-field.ts`.  The
source throws `Error('Vectors must have the same dimension')` when the
lengths differ, modelled by `Except.error`. -/
noncomputable def harmonicSimilarity (v₁ v₂ : List ComplexPolar) : Except String ℝ :=
  if v₁.length ≠ v₂.length then Except.error "Vectors must have the same dimension"
  else Except.ok (harmonicSimilarityCore v₁ v₂)

/-- `calculatePatternMatchConfidence(userIntent, echoPattern)` of
`harmonic-field.ts`.  Both embeddings use the default dimension 128, so
the inner `harmonicSimilarity` call never takes its error branch and the
`error` arm below is unreachable. -/
noncomputable def calculatePatternMatchConfidence (userIntent echoPattern : String) : ℝ :=
  let intentVector := stringToHarmonicVector (jsToLower userIntent) 128
  let patternVector := stringToHarmonicVector (jsToLower echoPattern) 128
  let baseSimilarity := match harmonicSimilarity intentVector patternVector with
    | Except.ok s => s
    | Except.error _ => 0
  let intentWords := (jsSplitWS (jsToLower userIntent)).toFinset
  let patternWords := (jsSplitWS (jsToLower echoPattern)).toFinset
  let totalKeywords := (patternWords.filter fun w => 3 < w.length).card
  let keywordMatches := (patternWords.filter fun w => 3 < w.length ∧ w ∈ intentWords).card
  let keywordBoost := if 0 < totalKeywords then (keywordMatches : ℝ) / (totalKeywords : ℝ) else 0
  baseSimilarity * HARMONIC_SIMILARITY_WEIGHT + keywordBoost * KEYWORD_MATCH_WEIGHT

/-! ## ResonanceEngine (`resonance-engine.ts`) -/

/-- A user input pulse (`Pulse` in `resonance-engine.ts`). -/
structure Pulse where
  content : String
  direction : List ℝ
  magnitude : ℝ
  frequency : ℝ

/-- The system context (`Context` in `resonance-engine.ts`). -/
structure Context where
  state : String
  patterns : List ℝ
  expectedDirection : List ℝ
  systemFrequency : ℝ

/-- The resonance measurement result (`Resonance` in `resonance-engine.ts`). -/
structure Resonance where
  score : ℝ
  directionAlignment : ℝ
  magnitudeAlignment : ℝ
  frequencyAlignment : ℝ

/-- The Reality Threshold constant `REALITY_THRESHOLD` of
`resonance-engine.ts`. -/
noncomputable def REALITY_THRESHOLD : ℝ := 0.95

/-- The accumulated sum of the `dotProduct` reduce loop of
`resonance-engine.ts`, on the common prefix of the two lists. -/
def dotCore (a b : List ℝ) : ℝ :=
  (List.zipWith (fun x y => x * y) a b).sum

/-- `dotProduct(a, b)` of `resonance-engine.ts`: throws
`Error('Vectors must have the same length')` on a length mismatch,
modelled by `Except.error`. -/
def dotProduct (a b : List ℝ) : Except String ℝ :=
  if a.length ≠ b.length then Except.error "Vectors must have the same length"
  else Except.ok (dotCore a b)

/-- The squared Euclidean norm
`vector.reduce((sum, val) => sum + val * val, 0)` of `normalize`. -/
def normSq (v : List ℝ) : ℝ :=
  (v.map fun x => x * x).sum

/-- `normalize(vector)` of `resonance-engine.ts` (named `normalizeVec` here
because Mathlib already declares `normalize`): divide by the Euclidean
magnitude, except that a zero-magnitude vector is returned unchanged. -/
noncomputable def normalizeVec (v : List ℝ) : List ℝ :=
  let m := Real.sqrt (normSq v)
  if m = 0 then v else v.map fun x => x / m

/-- `measureResonance(pulse, context)` of `resonance-engine.ts`.  The only
failure path is the `dotProduct` length check, so the result is an
`Except` whose error carries that exception. -/
noncomputable def measureResonance (pulse : Pulse) (context : Context) : Except String Resonance :=
  let normalizedPulseDirection := normalizeVec pulse.direction
  let normalizedContextDirection := normalizeVec context.expectedDirection
  (dotProduct normalizedPulseDirection normalizedContextDirection).map fun directionDot =>
    let directionAlignment := (directionDot + 1) / 2
    let contextMagnitude :=
      if 0 < context.patterns.length then context.patterns.sum / (context.patterns.length : ℝ)
      else 0.5
    let magnitudeAlignment := 1 - |pulse.magnitude - contextMagnitude|
    let frequencyAlignment := 1 - |pulse.frequency - context.systemFrequency|
    { score := directionAlignment * 0.5 + magnitudeAlignment * 0.3 + frequencyAlignment * 0.2
      directionAlignment := directionAlignment
      magnitudeAlignment := magnitudeAlignment
      frequencyAlignment := frequencyAlignment }

/-- `shouldCrystallize(resonance)` of `resonance-engine.ts`. -/
def shouldCrystallize (resonance : Resonance) : Prop :=
  REALITY_THRESHOLD ≤ resonance.score

/-! ## StateManager (`state-manager.ts`) -/

/-- The two idea states (`IdeaState` in `state-manager.ts`). -/
inductive IdeaState where
  | vapor
  | crystal
deriving DecidableEq

/-- An idea record (`Idea` in `state-manager.ts`).  Timestamps are integer
milliseconds; the free-form metadata is modelled as a key/value list. -/
structure Idea where
  id : String
  content : String
  state : IdeaState
  resonanceHistory : List ℝ
  createdAt : ℤ
  lastStateChange : ℤ
  metadata : List (String × String)

/-- The optional transition configuration (`StateTransitionConfig`), where
`none` stands for an absent field, replaced by the defaults of
`DEFAULT_CONFIG` (`REALITY_THRESHOLD` and `3`). -/
structure StateTransitionConfig where
  crystallizationThreshold : Option ℝ
  vaporRevertThreshold : Option ℕ

/-- Model of `updatedResonanceHistory.slice(-n)`: the last `n` entries.
JavaScript evaluates `slice(-0)` as `slice(0)`, which is the whole array,
hence the `n = 0` branch. -/
def jsSliceLast (l : List ℝ) (n : ℕ) : List ℝ :=
  if n = 0 then l else l.drop (l.length - n)

/-- `checkCrystallization(idea, resonance, config)` of `state-manager.ts`.
`Date.now()` is passed in as `now`.  Both transition checks test the
ORIGINAL `idea.state`, exactly as the source does. -/
noncomputable def checkCrystallization (now : ℤ) (idea : Idea) (resonance : Resonance)
    (config : StateTransitionConfig) : Idea :=
  let crystallizationThreshold := config.crystallizationThreshold.getD REALITY_THRESHOLD
  let vaporRevertThreshold := config.vaporRevertThreshold.getD 3
  let updatedResonanceHistory := idea.resonanceHistory ++ [resonance.score]
  let updated₁ : Idea := { idea with resonanceHistory := updatedResonanceHistory }
  let updated₂ : Idea :=
    if idea.state = IdeaState.vapor ∧ crystallizationThreshold ≤ resonance.score then
      { updated₁ with state := IdeaState.crystal, lastStateChange := now }
    else updated₁
  let recentReadings := jsSliceLast updatedResonanceHistory vaporRevertThreshold
  if idea.state = IdeaState.crystal ∧ vaporRevertThreshold ≤ recentReadings.length ∧
      ∀ score ∈ recentReadings, score < crystallizationThreshold then
    { updated₂ with state := IdeaState.vapor, lastStateChange := now }
  else updated₂

/-! ## GOOSEGUARD (`gooseguard.ts`) -/

/-- The dynamically typed `payload` field of an action.  The source
distinguishes string payloads, object payloads and everything else
(compared by strict equality); object values are modelled as strings. -/
inductive Payload where
  | str (s : String)
  | obj (kvs : List (String × String))
  | num (q : ℚ)
deriving DecidableEq

/-- A user action (`Action` in `gooseguard.ts`, named `UserAction` here
because Mathlib already declares `Action`), timestamp in integer
milliseconds. -/
structure UserAction where
  id : String
  type : String
  payload : Payload
  timestamp : ℤ
deriving DecidableEq

/-- A loop detection result (`LoopDetection` in `gooseguard.ts`). -/
structure LoopDetection where
  detected : Bool
  pattern : Option String
  repetitions : Option ℕ
deriving DecidableEq

/-- Constant `LOOP_THRESHOLD` of `gooseguard.ts`. -/
def LOOP_THRESHOLD : ℕ := 3

/-- Constant `LOOP_DETECTION_WINDOW` of `gooseguard.ts` (5 minutes in ms). -/
def LOOP_DETECTION_WINDOW : ℤ := 5 * 60 * 1000

/-- Constant `SIMILARITY_THRESHOLD` of `gooseguard.ts`. -/
def SIMILARITY_THRESHOLD : ℚ := 7 / 10

/-- The lower-cased whitespace-token set of a string payload, as built by
`new Set(str.toLowerCase().split(/\s+/))`. -/
def wordSet (s : String) : Finset String :=
  (jsSplitWS (jsToLower s)).toFinset

/-- `calculateActionSimilarity(action1, action2)` of `gooseguard.ts`:
0 on a type mismatch; Jaccard similarity of lower-cased word sets for two
string payloads; matching-key fraction for two object payloads; strict
equality (1 or 0) otherwise. -/
def calculateActionSimilarity (action₁ action₂ : UserAction) : ℚ :=
  if action₁.type ≠ action₂.type then 0
  else
    match action₁.payload, action₂.payload with
    | Payload.str s₁, Payload.str s₂ =>
      let words₁ := wordSet s₁
      let words₂ := wordSet s₂
      let inter := words₁ ∩ words₂
      let union := words₁ ∪ words₂
      if 0 < union.card then (inter.card : ℚ) / (union.card : ℚ) else 0
    | Payload.obj kvs₁, Payload.obj kvs₂ =>
      let keys₁ := kvs₁.map Prod.fst
      let keys₂ := kvs₂.map Prod.fst
      let matchingKeys := keys₁.filter fun key =>
        key ∈ keys₂ ∧ kvs₁.lookup key = kvs₂.lookup key
      let totalKeys := (keys₁ ++ keys₂).toFinset.card
      if 0 < totalKeys then (matchingKeys.length : ℚ) / (totalKeys : ℚ) else 0
    | p₁, p₂ => if p₁ = p₂ then 1 else 0

/-- The window filter of `detectLoop`: the actions within
`LOOP_DETECTION_WINDOW` of `now`. -/
def loopWindowFilter (now : ℤ) (actions : List UserAction) : List UserAction :=
  actions.filter fun action => now - action.timestamp ≤ LOOP_DETECTION_WINDOW

/-- The counting loop of `detectLoop`: the most recent action counts as 1,
plus every earlier action of the window whose similarity to it strictly
exceeds `SIMILARITY_THRESHOLD`.  The source iterates indices
`length - 2, …, 0`; that loop computes exactly this `countP` over all but
the last element. -/
def similarToLastCount (mostRecentAction : UserAction) (recentActions : List UserAction) : ℕ :=
  1 + recentActions.dropLast.countP fun action =>
    decide (SIMILARITY_THRESHOLD < calculateActionSimilarity mostRecentAction action)

/-- `detectLoop(actions)` of `gooseguard.ts`, with `Date.now()` passed in
as `now`.  The `none` arm of the `getLast?` match is unreachable: it is
taken only when the filtered list is empty, which the preceding length
check excludes. -/
def detectLoop (now : ℤ) (actions : List UserAction) : LoopDetection :=
  if actions.length < LOOP_THRESHOLD then ⟨false, none, none⟩
  else
    let recentActions := loopWindowFilter now actions
    if recentActions.length < LOOP_THRESHOLD then ⟨false, none, none⟩
    else
      match recentActions.getLast? with
      | none => ⟨false, none, none⟩
      | some mostRecentAction =>
        let similarCount := similarToLastCount mostRecentAction recentActions
        if LOOP_THRESHOLD ≤ similarCount then
          ⟨true, some mostRecentAction.type, some similarCount⟩
        else ⟨false, none, none⟩

/-! ## ZAK Echo registry search (`prz-validation.ts`, `zak-echoes.ts`) -/

/-- The retention class of an echo (the `ttl` field of `ZakEcho`). -/
inductive ZakEchoTtl where
  | PERMANENT
  | PENDING
deriving DecidableEq, Inhabited

/-- A registry entry (`ZakEcho` in `zak-echoes.ts`). -/
structure ZakEcho where
  id : String
  title : String
  pattern : String
  confidence : ℝ
  validated : String
  performance : String
  ttl : ZakEchoTtl
deriving Inhabited

/-- The input of the registry search (`ZakEchoSearchInput`). -/
structure ZakEchoSearchInput where
  userIntent : String
  intentClassification : String
  domain : String

/-- A single match (`ZakEchoMatch`). -/
structure ZakEchoMatch where
  echo : ZakEcho
  matchConfidence : ℝ
  shouldApply : Bool

/-- The search result (`ZakEchoSearchOutput`; the `matches` field carries a
prime because `matches` is a Lean keyword). -/
structure ZakEchoSearchOutput where
  matches' : List ZakEchoMatch
  bestMatch : Option ZakEchoMatch
  appliedPattern : Option String

/-- Drop the first occurrence of the character `x` from a character list,
modelling `echo.validated.replace('x', '')` (JavaScript `replace` with a
string pattern replaces only the first occurrence). -/
def removeFirstX : List Char → List Char
  | [] => []
  | c :: cs => if c = 'x' then cs else c :: removeFirstX cs

/-- `echo.validated.replace('x', '')`. -/
def jsReplaceFirstX (s : String) : String :=
  String.mk (removeFirstX s.data)

/-- Model of `parseInt(s)` (base 10, no `0x` handling, which the registry
strings never use): skip leading whitespace, read an optional sign and a
maximal digit prefix, and return `none` (`NaN`) when no digit is found. -/
def jsParseInt (s : String) : Option ℤ :=
  let cs := s.data.dropWhile fun c => c.isWhitespace
  let signAndRest : ℤ × List Char :=
    match cs with
    | '-' :: rest => (-1, rest)
    | '+' :: rest => (1, rest)
    | rest => (1, rest)
  let digits := signAndRest.2.takeWhile fun c => c.isDigit
  if digits = [] then none
  else some (signAndRest.1 * ((digits.foldl (fun acc c => acc * 10 + (c.toNat - 48)) 0 : ℕ) : ℤ))

/-- The body of the `zakEchoRegistry.map` callback in
`searchZakEchoRegistry` (`prz-validation.ts`): base confidence from
`calculatePatternMatchConfidence`, then the validation-count boost, then
the permanent/high-confidence boost, then the `0.85` apply threshold. -/
noncomputable def matchForEcho (userIntent : String) (echo : ZakEcho) : ZakEchoMatch :=
  let baseConfidence := calculatePatternMatchConfidence userIntent echo.pattern
  let afterValidationBoost :=
    if echo.validated ≠ "Pending" then
      match jsParseInt (jsReplaceFirstX echo.validated) with
      | some validationCount =>
        min (baseConfidence * (1 + (validationCount : ℝ) * 0.05)) 1
      | none => baseConfidence
    else baseConfidence
  let matchConfidence :=
    if echo.ttl = ZakEchoTtl.PERMANENT ∧ 0.9 ≤ echo.confidence then
      min (afterValidationBoost * 1.1) 1
    else afterValidationBoost
  { echo := echo
    matchConfidence := matchConfidence
    shouldApply := decide (0.85 ≤ matchConfidence) }

/-- The descending-confidence comparator of
`matches.sort((a, b) => b.matchConfidence - a.matchConfidence)`. -/
noncomputable def confidenceDescending (a b : ZakEchoMatch) : Bool :=
  decide (b.matchConfidence ≤ a.matchConfidence)

/-- `searchZakEchoRegistry` of `prz-validation.ts`, generalized over the
registry it iterates, per the specification's recasting of the module
global as a caller-owned collection.  The sort models the engine's stable
`Array.prototype.sort`. -/
noncomputable def searchZakEchoRegistryWith (registry : List ZakEcho)
    (input : ZakEchoSearchInput) : ZakEchoSearchOutput :=
  let sorted := (registry.map (matchForEcho input.userIntent)).mergeSort confidenceDescending
  let bestMatch := sorted.head?
  let appliedPattern :=
    match bestMatch with
    | some best => if best.shouldApply then some best.echo.pattern else none
    | none => none
  { matches' := sorted
    bestMatch := bestMatch
    appliedPattern := appliedPattern }

/-- The concrete registry `zakEchoRegistry` of `zak-echoes.ts`. -/
noncomputable def zakEchoRegistry : List ZakEcho :=
  [{ id := "zak_complete_100_percent"
     title := "Complete-100-Percent"
     pattern := "When user says 'continue', complete to 100% WITHOUT asking"
     confidence := 0.97
     validated := "3x"
     performance := "+740% flow improvement"
     ttl := ZakEchoTtl.PERMANENT },
   { id := "zak_open_ended_sections"
     title := "Open-Ended-Section-Handler"
     pattern := "For open-ended sections, provide 3-5 concrete points then close"
     confidence := 0.89
     validated := "2x"
     performance := "Prevents scope creep"
     ttl := ZakEchoTtl.PERMANENT },
   { id := "zak_prz_meta_audit"
     title := "PRZ-Meta-Audit"
     pattern := "When user requests PRZ audit: (1) Complete artifact (2) Self-audit with metrics (3) Show trajectory"
     confidence := 0.91
     validated := "1x"
     performance := "Standardizes audit format"
     ttl := ZakEchoTtl.PERMANENT },
   { id := "zak_audit_means_both"
     title := "Audit-Means-Both"
     pattern := "When user says \"audit X\", interpret as \"validate X AND optimize X\""
     confidence := 0.87
     validated := "Pending"
     performance := "TBD"
     ttl := ZakEchoTtl.PERMANENT },
   { id := "zak_decode_then_execute"
     title := "Decode-Then-Execute"
     pattern := "Always decode intent to 0.90+ confidence before executing. If ambiguous, choose highest-value interpretation."
     confidence := 0.92
     validated := "Pending"
     performance := "TBD"
     ttl := ZakEchoTtl.PERMANENT }]

/-- `searchZakEchoRegistry(input)` as the source exposes it, closed over
the module-global registry. -/
noncomputable def searchZakEchoRegistry (input : ZakEchoSearchInput) : ZakEchoSearchOutput :=
  searchZakEchoRegistryWith zakEchoRegistry input

/-- The specification's description of the match-confidence computation,
written from the spec's words for comparison with `matchForEcho`:
"(a) if validation count is a known integer n, multiply by
`(1 + n * 0.05)`, clamped to 1.0; (b) if retention class is permanent and
the pattern's own baseline confidence is at least 0.9, multiply by 1.1,
clamped to 1.0". -/
noncomputable def specMatchConfidence (base : ℝ) (echo : ZakEcho) : ℝ :=
  let afterValidation :=
    match jsParseInt (jsReplaceFirstX echo.validated) with
    | some n => min (base * (1 + (n : ℝ) * 0.05)) 1
    | none => base
  if echo.ttl = ZakEchoTtl.PERMANENT ∧ 0.9 ≤ echo.confidence then
    min (afterValidation * 1.1) 1
  else afterValidation

/-! ## Helper lemmas: the embedder -/

/-- The embedding always produces a vector of `max dim 0` elements. -/
theorem stringToHarmonicVector_length (text : String) (dim : ℤ) :
    (stringToHarmonicVector text dim).length = dim.toNat := by
  simp [stringToHarmonicVector]

/-- Closed form of the element of the embedding at index `i`. -/
theorem stringToHarmonicVector_get (text : String) (dim : ℤ) (i : ℕ)
    (h : i < (stringToHarmonicVector text dim).length) :
    (stringToHarmonicVector text dim).get ⟨i, h⟩ =
      { magnitude := MAGNITUDE_BASE +
          ((hashString (text ++ toString i) % MAGNITUDE_SCALE : ℕ) : ℝ) / 1000
        phase := ((hashString (text ++ toString i) % PHASE_SCALE : ℕ) : ℝ) / (PHASE_SCALE : ℝ) *
          (2 * Real.pi) - Real.pi } := by
  simp [stringToHarmonicVector]

/-! ## Claims C1, C7, C9, C10 -/

/-- Counterexample to C1: `stringToHarmonicVector` does not fail on a
non-positive dimension — the source has no dimension check at all, so
`dim = 0` and `dim = -5` both return the empty vector instead of raising a
ConfigurationError. -/
theorem c1_counterexample_embed_dim_zero_succeeds :
    stringToHarmonicVector "hello" 0 = [] ∧ stringToHarmonicVector "hello" (-5) = [] := by
  constructor <;> simp [stringToHarmonicVector]

/-- C1 (amended): `stringToHarmonicVector` never fails; for every text it
returns the empty vector when `dim ≤ 0` and a vector of length `dim` when
`dim > 0`. -/
theorem c1_embed_total (text : String) (dim : ℤ) :
    (dim ≤ 0 → stringToHarmonicVector text dim = []) ∧
    (0 < dim → ((stringToHarmonicVector text dim).length : ℤ) = dim) := by
  constructor
  · intro h
    have : dim.toNat = 0 := Int.toNat_of_nonpos h
    simp [stringToHarmonicVector, this]
  · intro h
    rw [stringToHarmonicVector_length]
    exact Int.toNat_of_nonneg h.le

/-- Witness for C1 (amended) at `text = "x"`, `dim = 1`. -/
theorem c1_embed_total_witness :
    (0 : ℤ) < 1 ∧ ((stringToHarmonicVector "x" 1).length : ℤ) = 1 :=
  ⟨by norm_num, (c1_embed_total "x" 1).2 (by norm_num)⟩

/-- C7: the embedding is deterministic.  Two calls with identical
arguments are equal, and the element at index `i` does not even depend on
the dimension argument: it is a pure function of the text and the index
(via `hashString`, which folds over the character codes and involves no
process- or platform-dependent salt). -/
theorem c7_embed_deterministic (text : String) (dim : ℤ) :
    stringToHarmonicVector text dim = stringToHarmonicVector text dim ∧
    ∀ (d₁ d₂ : ℤ) (i : ℕ) (h₁ : i < (stringToHarmonicVector text d₁).length)
      (h₂ : i < (stringToHarmonicVector text d₂).length),
      (stringToHarmonicVector text d₁).get ⟨i, h₁⟩ =
        (stringToHarmonicVector text d₂).get ⟨i, h₂⟩ := by
  refine ⟨rfl, ?_⟩
  intro d₁ d₂ i h₁ h₂
  rw [stringToHarmonicVector_get, stringToHarmonicVector_get]

/-- Witness for C7: the first element of the embedding of `"a"` agrees
between dimensions 1 and 2. -/
theorem c7_embed_deterministic_witness :
    (stringToHarmonicVector "a" 1).get
        ⟨0, by rw [stringToHarmonicVector_length]; norm_num⟩ =
      (stringToHarmonicVector "a" 2).get
        ⟨0, by rw [stringToHarmonicVector_length]; norm_num⟩ :=
  (c7_embed_deterministic "a" 0).2 1 2 0 _ _

/-- C9: for every text and every positive dimension, every element of the
embedding has magnitude in `[0.5, 1.5)` and phase in `[-π, π)`. -/
theorem c9_embed_element_bounds (text : String) (dim : ℤ) (hdim : 0 < dim)
    (e : ComplexPolar) (he : e ∈ stringToHarmonicVector text dim) :
    0.5 ≤ e.magnitude ∧ e.magnitude < 1.5 ∧ -Real.pi ≤ e.phase ∧ e.phase < Real.pi := by
  simp only [stringToHarmonicVector, List.mem_map, List.mem_range] at he
  obtain ⟨i, -, rfl⟩ := he
  have hmag : (hashString (text ++ toString i) % MAGNITUDE_SCALE : ℕ) < 500 :=
    Nat.mod_lt _ (by norm_num [MAGNITUDE_SCALE])
  have hph : (hashString (text ++ toString i) % PHASE_SCALE : ℕ) < 10000 :=
    Nat.mod_lt _ (by norm_num [PHASE_SCALE])
  have hmagR : ((hashString (text ++ toString i) % MAGNITUDE_SCALE : ℕ) : ℝ) < 500 := by
    exact_mod_cast hmag
  have hmagR0 : (0 : ℝ) ≤ ((hashString (text ++ toString i) % MAGNITUDE_SCALE : ℕ) : ℝ) := by
    positivity
  have hphR : ((hashString (text ++ toString i) % PHASE_SCALE : ℕ) : ℝ) < 10000 := by
    exact_mod_cast hph
  have hphR0 : (0 : ℝ) ≤ ((hashString (text ++ toString i) % PHASE_SCALE : ℕ) : ℝ) := by
    positivity
  have hpi := Real.pi_pos
  refine ⟨?_, ?_, ?_, ?_⟩
  · show 0.5 ≤ MAGNITUDE_BASE + _ / 1000
    rw [MAGNITUDE_BASE]
    nlinarith
  · show MAGNITUDE_BASE + _ / 1000 < 1.5
    rw [MAGNITUDE_BASE]
    nlinarith
  · show -Real.pi ≤ _ / (PHASE_SCALE : ℝ) * (2 * Real.pi) - Real.pi
    rw [PHASE_SCALE]
    simp only [PHASE_SCALE] at hphR hphR0
    push_cast
    nlinarith
  · show _ / (PHASE_SCALE : ℝ) * (2 * Real.pi) - Real.pi < Real.pi
    rw [PHASE_SCALE]
    simp only [PHASE_SCALE] at hphR hphR0
    push_cast
    nlinarith

/-- Witness for C9 at `text = "a"`, `dim = 1`, first element. -/
theorem c9_embed_element_bounds_witness :
    ((0 : ℤ) < 1 ∧
      (stringToHarmonicVector "a" 1).get
          ⟨0, by rw [stringToHarmonicVector_length]; norm_num⟩ ∈
        stringToHarmonicVector "a" 1) ∧
    (0.5 ≤ ((stringToHarmonicVector "a" 1).get
          ⟨0, by rw [stringToHarmonicVector_length]; norm_num⟩).magnitude ∧
      ((stringToHarmonicVector "a" 1).get
          ⟨0, by rw [stringToHarmonicVector_length]; norm_num⟩).magnitude < 1.5 ∧
      -Real.pi ≤ ((stringToHarmonicVector "a" 1).get
          ⟨0, by rw [stringToHarmonicVector_length]; norm_num⟩).phase ∧
      ((stringToHarmonicVector "a" 1).get
          ⟨0, by rw [stringToHarmonicVector_length]; norm_num⟩).phase < Real.pi) :=
  ⟨⟨by norm_num, List.get_mem _ _ _⟩,
    c9_embed_element_bounds "a" 1 (by norm_num) _ (List.get_mem _ _ _)⟩

/-- C10: the magnitude produced at every index is exactly
`0.5 + (hash mod 500) / 1000`, hence lies in `[0.5, 0.999]`, strictly
below 1 — only the bottom half of the nominal `[0.5, 1.5)` range occurs. -/
theorem c10_embed_magnitude_formula (text : String) (dim : ℤ) (i : ℕ)
    (h : i < (stringToHarmonicVector text dim).length) :
    ((stringToHarmonicVector text dim).get ⟨i, h⟩).magnitude =
      0.5 + ((hashString (text ++ toString i) % 500 : ℕ) : ℝ) / 1000 ∧
    0.5 ≤ ((stringToHarmonicVector text dim).get ⟨i, h⟩).magnitude ∧
    ((stringToHarmonicVector text dim).get ⟨i, h⟩).magnitude ≤ 0.999 ∧
    ((stringToHarmonicVector text dim).get ⟨i, h⟩).magnitude < 1 := by
  rw [stringToHarmonicVector_get]
  have hmag : (hashString (text ++ toString i) % MAGNITUDE_SCALE : ℕ) ≤ 499 :=
    Nat.lt_succ_iff.mp (Nat.mod_lt _ (by norm_num [MAGNITUDE_SCALE]))
  have hmagR : ((hashString (text ++ toString i) % MAGNITUDE_SCALE : ℕ) : ℝ) ≤ 499 := by
    exact_mod_cast hmag
  have hmagR0 : (0 : ℝ) ≤ ((hashString (text ++ toString i) % MAGNITUDE_SCALE : ℕ) : ℝ) := by
    positivity
  refine ⟨?_, ?_, ?_, ?_⟩
  · show MAGNITUDE_BASE + _ = _
    rw [MAGNITUDE_BASE, MAGNITUDE_SCALE]
  · show 0.5 ≤ MAGNITUDE_BASE + _
    rw [MAGNITUDE_BASE]
    nlinarith
  · show MAGNITUDE_BASE + _ ≤ 0.999
    rw [MAGNITUDE_BASE]
    nlinarith
  · show MAGNITUDE_BASE + _ < 1
    rw [MAGNITUDE_BASE]
    nlinarith

/-- Witness for C10 at `text = "a"`, `dim = 1`, index 0. -/
theorem c10_embed_magnitude_formula_witness :
    0 < (stringToHarmonicVector "a" 1).length ∧
    ((stringToHarmonicVector "a" 1).get
        ⟨0, by rw [stringToHarmonicVector_length]; norm_num⟩).magnitude =
      0.5 + ((hashString ("a" ++ toString 0) % 500 : ℕ) : ℝ) / 1000 :=
  ⟨by rw [stringToHarmonicVector_length]; norm_num,
    (c10_embed_magnitude_formula "a" 1 0 _).1⟩

/-! ## Helper lemmas: the resonance engine -/

/-- The squared norm of a vector is nonnegative. -/
theorem normSq_nonneg (v : List ℝ) : 0 ≤ normSq v := by
  apply List.sum_nonneg
  intro x hx
  simp only [List.mem_map] at hx
  obtain ⟨y, -, rfl⟩ := hx
  exact mul_self_nonneg y

/-- `normSq` on a cons cell. -/
theorem normSq_cons (x : ℝ) (xs : List ℝ) : normSq (x :: xs) = x * x + normSq xs := by
  simp [normSq]

/-- Cauchy–Schwarz for the truncating dot product: it holds for lists of
any lengths because `zipWith` truncates to the common prefix and squares
are nonnegative. -/
theorem dotCore_sq_le (a : List ℝ) : ∀ b : List ℝ,
    dotCore a b ^ 2 ≤ normSq a * normSq b := by
  induction a with
  | nil =>
    intro b
    simp only [dotCore, List.zipWith_nil_left, List.sum_nil]
    have := normSq_nonneg b
    have h0 : normSq ([] : List ℝ) = 0 := by simp [normSq]
    nlinarith
  | cons x xs ih =>
    intro b
    cases b with
    | nil =>
      simp only [dotCore, List.zipWith_nil_right, List.sum_nil]
      have := normSq_nonneg (x :: xs)
      have h0 : normSq ([] : List ℝ) = 0 := by simp [normSq]
      nlinarith
    | cons y ys =>
      have hS := ih ys
      have hA := normSq_nonneg xs
      have hB := normSq_nonneg ys
      have hcons : dotCore (x :: xs) (y :: ys) = x * y + dotCore xs ys := by
        simp [dotCore]
      rw [hcons, normSq_cons, normSq_cons]
      rcases eq_or_lt_of_le hA with hA0 | hApos
      · have hS0 : dotCore xs ys = 0 := by
          have : dotCore xs ys ^ 2 ≤ 0 := by rw [← hA0] at hS; linarith [hS, mul_nonneg hA hB]
          nlinarith [sq_nonneg (dotCore xs ys)]
        rw [hS0, ← hA0]
        nlinarith [sq_nonneg (x * y), mul_nonneg (mul_self_nonneg x) hB,
          mul_nonneg (mul_self_nonneg y) hB]
      · nlinarith [sq_nonneg (x * dotCore xs ys - normSq xs * y),
          mul_nonneg (mul_self_nonneg x) (sub_nonneg.mpr hS),
          mul_nonneg hApos.le (sub_nonneg.mpr hS)]

/-- Scaling both arguments of the dot product divides it by the product of
the scales (unconditionally, since real division by zero is zero). -/
theorem dotCore_map_div (s t : ℝ) : ∀ (a b : List ℝ),
    dotCore (a.map fun x => x / s) (b.map fun x => x / t) = dotCore a b / (s * t) := by
  intro a
  induction a with
  | nil => intro b; simp [dotCore]
  | cons x xs ih =>
    intro b
    cases b with
    | nil => simp [dotCore]
    | cons y ys =>
      have h₁ : dotCore ((x :: xs).map fun v => v / s) ((y :: ys).map fun v => v / t) =
          x / s * (y / t) + dotCore (xs.map fun v => v / s) (ys.map fun v => v / t) := by
        simp [dotCore]
      have h₂ : dotCore (x :: xs) (y :: ys) = x * y + dotCore xs ys := by
        simp [dotCore]
      rw [h₁, h₂, ih ys, div_mul_div_comm, add_div]

/-- `normalizeVec` preserves length. -/
theorem normalizeVec_length (v : List ℝ) : (normalizeVec v).length = v.length := by
  unfold normalizeVec
  by_cases h : Real.sqrt (normSq v) = 0
  · rw [if_pos h]
  · rw [if_neg h, List.length_map]

/-- The dot product of two normalized vectors lies in `[-1, 1]`, whatever
the input vectors are: the zero-magnitude branches contribute a zero dot
product, and otherwise the normalization divides by the product of norms. -/
theorem dotCore_normalizeVec_bounds (a b : List ℝ) :
    -1 ≤ dotCore (normalizeVec a) (normalizeVec b) ∧
      dotCore (normalizeVec a) (normalizeVec b) ≤ 1 := by
  have key : dotCore (normalizeVec a) (normalizeVec b) ^ 2 ≤ 1 := by
    unfold normalizeVec
    by_cases ha : Real.sqrt (normSq a) = 0
    · have ha0 : normSq a = 0 :=
        le_antisymm (Real.sqrt_eq_zero'.mp ha) (normSq_nonneg a)
      rw [if_pos ha]
      by_cases hb : Real.sqrt (normSq b) = 0
      · rw [if_pos hb]
        have hcs := dotCore_sq_le a b
        rw [ha0, zero_mul] at hcs
        nlinarith [sq_nonneg (dotCore a b)]
      · rw [if_neg hb]
        have hcs := dotCore_sq_le a (b.map fun x => x / Real.sqrt (normSq b))
        rw [ha0, zero_mul] at hcs
        nlinarith [sq_nonneg (dotCore a (b.map fun x => x / Real.sqrt (normSq b)))]
    · rw [if_neg ha]
      by_cases hb : Real.sqrt (normSq b) = 0
      · have hb0 : normSq b = 0 :=
          le_antisymm (Real.sqrt_eq_zero'.mp hb) (normSq_nonneg b)
        rw [if_pos hb]
        have hcs := dotCore_sq_le (a.map fun x => x / Real.sqrt (normSq a)) b
        rw [hb0, mul_zero] at hcs
        nlinarith [sq_nonneg (dotCore (a.map fun x => x / Real.sqrt (normSq a)) b)]
      · rw [if_neg hb, dotCore_map_div]
        have hsa : 0 < Real.sqrt (normSq a) :=
          lt_of_le_of_ne (Real.sqrt_nonneg _) (Ne.symm ha)
        have hsb : 0 < Real.sqrt (normSq b) :=
          lt_of_le_of_ne (Real.sqrt_nonneg _) (Ne.symm hb)
        rw [div_pow, div_le_one (by positivity)]
        have hsq : (Real.sqrt (normSq a) * Real.sqrt (normSq b)) ^ 2 =
            normSq a * normSq b := by
          rw [mul_pow, Real.sq_sqrt (normSq_nonneg a), Real.sq_sqrt (normSq_nonneg b)]
        rw [hsq]
        exact dotCore_sq_le a b
  constructor
  · nlinarith [key, sq_nonneg (dotCore (normalizeVec a) (normalizeVec b) + 1)]
  · nlinarith [key, sq_nonneg (dotCore (normalizeVec a) (normalizeVec b) - 1)]

/-- When the two direction vectors have equal lengths, `measureResonance`
succeeds and returns the record built from the normalized dot product and
the two scalar alignments. -/
theorem measureResonance_eq_ok (pulse : Pulse) (context : Context)
    (h : pulse.direction.length = context.expectedDirection.length) :
    measureResonance pulse context = Except.ok
      { score := (dotCore (normalizeVec pulse.direction) (normalizeVec context.expectedDirection) + 1) / 2 * 0.5 +
          (1 - |pulse.magnitude - (if 0 < context.patterns.length then context.patterns.sum / (context.patterns.length : ℝ) else 0.5)|) * 0.3 +
          (1 - |pulse.frequency - context.systemFrequency|) * 0.2
        directionAlignment :=
          (dotCore (normalizeVec pulse.direction) (normalizeVec context.expectedDirection) + 1) / 2
        magnitudeAlignment :=
          1 - |pulse.magnitude - (if 0 < context.patterns.length then context.patterns.sum / (context.patterns.length : ℝ) else 0.5)|
        frequencyAlignment := 1 - |pulse.frequency - context.systemFrequency| } := by
  have hlen : ¬ ((normalizeVec pulse.direction).length ≠
      (normalizeVec context.expectedDirection).length) := by
    simp [normalizeVec_length, h]
  simp only [measureResonance, dotProduct]
  rw [if_neg hlen]
  rfl

/-! ## Claims C2, C8 -/

/-- Counterexample to C2 as stated: the claim constrains the pulse and the
system frequency but not `context.patterns`, and the magnitude alignment
`1 - |pulse.magnitude - mean(patterns)|` leaves `[0, 1]` as soon as the
pattern mean does.  At `patterns = [3]` the alignment is `-2` and the
overall score is `-0.15`. -/
theorem c2_counterexample_resonance_out_of_range :
    ¬ ∀ (pulse : Pulse) (context : Context),
        0 ≤ pulse.magnitude → pulse.magnitude ≤ 1 →
        0 ≤ pulse.frequency → pulse.frequency ≤ 1 →
        0 ≤ context.systemFrequency → context.systemFrequency ≤ 1 →
        pulse.direction.length = context.expectedDirection.length →
        ∀ r : Resonance, measureResonance pulse context = Except.ok r →
          0 ≤ r.score ∧ r.score ≤ 1 ∧
          0 ≤ r.directionAlignment ∧ r.directionAlignment ≤ 1 ∧
          0 ≤ r.magnitudeAlignment ∧ r.magnitudeAlignment ≤ 1 ∧
          0 ≤ r.frequencyAlignment ∧ r.frequencyAlignment ≤ 1 := by
  intro hall
  have hok := measureResonance_eq_ok ⟨"", [0], 0, 0⟩ ⟨"", [3], [0], 0⟩ rfl
  have hbounds := hall ⟨"", [0], 0, 0⟩ ⟨"", [3], [0], 0⟩ le_rfl zero_le_one le_rfl zero_le_one
    le_rfl zero_le_one rfl _ hok
  have hmag := hbounds.2.2.2.2.1
  have habs : |(0 : ℝ) - (if 0 < (([3] : List ℝ)).length then
      ([3] : List ℝ).sum / ((([3] : List ℝ)).length : ℝ) else 0.5)| = 3 := by
    norm_num
  dsimp only at hmag
  rw [habs] at hmag
  linarith

/-- C2 (amended): when additionally every entry of `context.patterns` lies
in `[0, 1]`, `measureResonance` succeeds on equal-length directions and
the overall score and all three component alignments lie in `[0, 1]`. -/
theorem c2_resonance_bounds (pulse : Pulse) (context : Context)
    (hm0 : 0 ≤ pulse.magnitude) (hm1 : pulse.magnitude ≤ 1)
    (hf0 : 0 ≤ pulse.frequency) (hf1 : pulse.frequency ≤ 1)
    (hs0 : 0 ≤ context.systemFrequency) (hs1 : context.systemFrequency ≤ 1)
    (hpat : ∀ x ∈ context.patterns, 0 ≤ x ∧ x ≤ 1)
    (hlen : pulse.direction.length = context.expectedDirection.length) :
    ∃ r : Resonance, measureResonance pulse context = Except.ok r ∧
      0 ≤ r.score ∧ r.score ≤ 1 ∧
      0 ≤ r.directionAlignment ∧ r.directionAlignment ≤ 1 ∧
      0 ≤ r.magnitudeAlignment ∧ r.magnitudeAlignment ≤ 1 ∧
      0 ≤ r.frequencyAlignment ∧ r.frequencyAlignment ≤ 1 := by
  refine ⟨_, measureResonance_eq_ok pulse context hlen, ?_⟩
  obtain ⟨hd1, hd2⟩ := dotCore_normalizeVec_bounds pulse.direction context.expectedDirection
  have hcm : 0 ≤ (if 0 < context.patterns.length then
        context.patterns.sum / (context.patterns.length : ℝ) else 0.5) ∧
      (if 0 < context.patterns.length then
        context.patterns.sum / (context.patterns.length : ℝ) else 0.5) ≤ 1 := by
    by_cases hlen0 : 0 < context.patterns.length
    · rw [if_pos hlen0]
      have hsum0 : (0 : ℝ) ≤ context.patterns.sum :=
        List.sum_nonneg fun x hx => (hpat x hx).1
      have hsum1 : context.patterns.sum ≤ (context.patterns.length : ℝ) := by
        have h := List.sum_le_card_nsmul context.patterns 1 fun x hx => (hpat x hx).2
        simpa using h
      have hposR : (0 : ℝ) < (context.patterns.length : ℝ) := by exact_mod_cast hlen0
      exact ⟨by positivity, by rw [div_le_one hposR]; exact hsum1⟩
    · rw [if_neg hlen0]
      norm_num
  have ham0 := abs_nonneg (pulse.magnitude - (if 0 < context.patterns.length then
    context.patterns.sum / (context.patterns.length : ℝ) else 0.5))
  have ham1 : |pulse.magnitude - (if 0 < context.patterns.length then
      context.patterns.sum / (context.patterns.length : ℝ) else 0.5)| ≤ 1 :=
    abs_le.mpr ⟨by linarith [hcm.2], by linarith [hcm.1]⟩
  have haf0 := abs_nonneg (pulse.frequency - context.systemFrequency)
  have haf1 : |pulse.frequency - context.systemFrequency| ≤ 1 :=
    abs_le.mpr ⟨by linarith, by linarith⟩
  dsimp only
  refine ⟨by linarith, by linarith, by linarith, by linarith, by linarith, by linarith,
    by linarith, by linarith⟩

/-- Witness for C2 (amended): a pulse `[1]` against a context expecting
`[1]` with empty history resonates perfectly. -/
theorem c2_resonance_bounds_witness :
    ((0 : ℝ) ≤ 0.5 ∧ (0.5 : ℝ) ≤ 1 ∧
      (∀ x ∈ (([] : List ℝ)), 0 ≤ x ∧ x ≤ 1) ∧
      ([(1 : ℝ)].length = [(1 : ℝ)].length)) ∧
    (∃ r : Resonance,
      measureResonance ⟨"", [1], 0.5, 0.5⟩ ⟨"", [], [1], 0.5⟩ = Except.ok r ∧
      0 ≤ r.score ∧ r.score ≤ 1 ∧
      0 ≤ r.directionAlignment ∧ r.directionAlignment ≤ 1 ∧
      0 ≤ r.magnitudeAlignment ∧ r.magnitudeAlignment ≤ 1 ∧
      0 ≤ r.frequencyAlignment ∧ r.frequencyAlignment ≤ 1) :=
  ⟨⟨by norm_num, by norm_num, by simp, rfl⟩,
    c2_resonance_bounds ⟨"", [1], 0.5, 0.5⟩ ⟨"", [], [1], 0.5⟩
      (by norm_num) (by norm_num) (by norm_num) (by norm_num) (by norm_num) (by norm_num)
      (by simp) rfl⟩

/-- C8: `harmonicSimilarity` and `measureResonance` fail exactly when the
two compared vectors differ in length; equal-length inputs never fail, and
a mismatch yields an error rather than any truncated or padded result. -/
theorem c8_dimension_mismatch :
    (∀ v₁ v₂ : List ComplexPolar,
      (∃ e, harmonicSimilarity v₁ v₂ = Except.error e) ↔ v₁.length ≠ v₂.length) ∧
    (∀ (pulse : Pulse) (context : Context),
      (∃ e, measureResonance pulse context = Except.error e) ↔
        pulse.direction.length ≠ context.expectedDirection.length) := by
  constructor
  · intro v₁ v₂
    constructor
    · rintro ⟨e, he⟩
      by_contra hlen
      unfold harmonicSimilarity at he
      rw [if_neg (not_not_intro hlen)] at he
      exact Except.noConfusion he
    · intro hlen
      refine ⟨"Vectors must have the same dimension", ?_⟩
      unfold harmonicSimilarity
      rw [if_pos hlen]
  · intro pulse context
    constructor
    · rintro ⟨e, he⟩
      by_contra hlen
      rw [measureResonance_eq_ok pulse context hlen] at he
      exact Except.noConfusion he
    · intro hlen
      refine ⟨"Vectors must have the same length", ?_⟩
      have hlen' : (normalizeVec pulse.direction).length ≠
          (normalizeVec context.expectedDirection).length := by
        rw [normalizeVec_length, normalizeVec_length]
        exact hlen
      simp only [measureResonance, dotProduct]
      rw [if_pos hlen']
      rfl

/-- Witness for C8: a 0-dimensional against a 1-dimensional vector fails. -/
theorem c8_dimension_mismatch_witness :
    ∃ e, harmonicSimilarity [] [⟨1, 1⟩] = Except.error e :=
  (c8_dimension_mismatch.1 [] [⟨1, 1⟩]).mpr (by simp)

/-! ## Claim C3 -/

/-- C3: `checkCrystallization` appends the score to the history, and the
new state is: Crystal when the old state is Vapor and the incoming score
reaches the crystallization threshold; Vapor when the old state is Crystal
and the most recent `vaporRevertThreshold` readings (after appending) all
fall below it (no reversion with fewer readings); unchanged otherwise. -/
theorem c3_check_crystallization (now : ℤ) (idea : Idea) (resonance : Resonance)
    (config : StateTransitionConfig) (hn : 1 ≤ config.vaporRevertThreshold.getD 3) :
    (checkCrystallization now idea resonance config).resonanceHistory =
      idea.resonanceHistory ++ [resonance.score] ∧
    (checkCrystallization now idea resonance config).state =
      (if idea.state = IdeaState.vapor ∧
          config.crystallizationThreshold.getD REALITY_THRESHOLD ≤ resonance.score then
        IdeaState.crystal
      else if idea.state = IdeaState.crystal ∧
          config.vaporRevertThreshold.getD 3 ≤
            (idea.resonanceHistory ++ [resonance.score]).length ∧
          ∀ s ∈ (idea.resonanceHistory ++ [resonance.score]).drop
              ((idea.resonanceHistory ++ [resonance.score]).length -
                config.vaporRevertThreshold.getD 3),
            s < config.crystallizationThreshold.getD REALITY_THRESHOLD then
        IdeaState.vapor
      else idea.state) := by
  have hn0 : config.vaporRevertThreshold.getD 3 ≠ 0 := by omega
  have hiff : config.vaporRevertThreshold.getD 3 ≤
      ((idea.resonanceHistory ++ [resonance.score]).drop
        ((idea.resonanceHistory ++ [resonance.score]).length -
          config.vaporRevertThreshold.getD 3)).length ↔
      config.vaporRevertThreshold.getD 3 ≤
        (idea.resonanceHistory ++ [resonance.score]).length := by
    rw [List.length_drop]
    omega
  constructor
  · simp only [checkCrystallization, jsSliceLast, if_neg hn0]
    split <;> split <;> rfl
  · simp only [checkCrystallization, jsSliceLast, if_neg hn0]
    cases hstate : idea.state with
    | vapor =>
      by_cases hsc : config.crystallizationThreshold.getD REALITY_THRESHOLD ≤ resonance.score
      · simp [hsc]
      · simp [hsc]
    | crystal =>
      simp only [hstate, eq_self_iff_true, true_and]
      have hfalse : ¬(IdeaState.crystal = IdeaState.vapor ∧
          config.crystallizationThreshold.getD REALITY_THRESHOLD ≤ resonance.score) :=
        fun hc => IdeaState.noConfusion hc.1
      rw [if_neg hfalse, if_neg hfalse]
      have hiff2 : config.vaporRevertThreshold.getD 3 ≤
          ((idea.resonanceHistory ++ [resonance.score]).drop
            ((idea.resonanceHistory ++ [resonance.score]).length -
              config.vaporRevertThreshold.getD 3)).length ↔
          config.vaporRevertThreshold.getD 3 ≤
            (idea.resonanceHistory ++ [resonance.score]).length := by
        rw [List.length_drop]
        omega
      by_cases hP : ∀ score ∈ (idea.resonanceHistory ++ [resonance.score]).drop
          ((idea.resonanceHistory ++ [resonance.score]).length -
            config.vaporRevertThreshold.getD 3),
          score < config.crystallizationThreshold.getD REALITY_THRESHOLD
      · by_cases hle : config.vaporRevertThreshold.getD 3 ≤
            (idea.resonanceHistory ++ [resonance.score]).length
        · rw [if_pos ⟨hiff2.mpr hle, hP⟩, if_pos ⟨hle, hP⟩]
        · rw [if_neg (fun hc => hle (hiff2.mp hc.1)), if_neg (fun hc => hle hc.1)]
      · rw [if_neg (fun hc => hP hc.2), if_neg (fun hc => hP hc.2)]

/-- Witness for C3: a Crystal idea with history `[0.8, 0.8]` fed a third
`0.8` reading under the default configuration. -/
theorem c3_check_crystallization_witness :
    1 ≤ (StateTransitionConfig.mk none none).vaporRevertThreshold.getD 3 ∧
    ((checkCrystallization 5 ⟨"i", "c", IdeaState.crystal, [0.8, 0.8], 0, 0, []⟩
        ⟨0.8, 0, 0, 0⟩ (StateTransitionConfig.mk none none)).resonanceHistory =
      [0.8, 0.8] ++ [0.8] ∧
      (checkCrystallization 5 ⟨"i", "c", IdeaState.crystal, [0.8, 0.8], 0, 0, []⟩
        ⟨0.8, 0, 0, 0⟩ (StateTransitionConfig.mk none none)).state =
      (if (⟨"i", "c", IdeaState.crystal, [0.8, 0.8], 0, 0, []⟩ : Idea).state = IdeaState.vapor ∧
          (StateTransitionConfig.mk none none).crystallizationThreshold.getD REALITY_THRESHOLD ≤
            (⟨0.8, 0, 0, 0⟩ : Resonance).score then
        IdeaState.crystal
      else if (⟨"i", "c", IdeaState.crystal, [0.8, 0.8], 0, 0, []⟩ : Idea).state = IdeaState.crystal ∧
          (StateTransitionConfig.mk none none).vaporRevertThreshold.getD 3 ≤
            (([0.8, 0.8] : List ℝ) ++ [0.8]).length ∧
          ∀ s ∈ (([0.8, 0.8] : List ℝ) ++ [0.8]).drop
              ((([0.8, 0.8] : List ℝ) ++ [0.8]).length -
                (StateTransitionConfig.mk none none).vaporRevertThreshold.getD 3),
            s < (StateTransitionConfig.mk none none).crystallizationThreshold.getD REALITY_THRESHOLD then
        IdeaState.vapor
      else (⟨"i", "c", IdeaState.crystal, [0.8, 0.8], 0, 0, []⟩ : Idea).state)) :=
  ⟨by norm_num,
    c3_check_crystallization 5 ⟨"i", "c", IdeaState.crystal, [0.8, 0.8], 0, 0, []⟩
      ⟨0.8, 0, 0, 0⟩ (StateTransitionConfig.mk none none) (by norm_num)⟩

/-! ## Claim C4 -/

/-- C4: `detectLoop` reports no loop when fewer than 3 actions are
supplied or fewer than 3 fall within the 5-minute window of `now`;
otherwise it counts the most recent filtered action as 1 plus every
earlier filtered action whose type-gated similarity to it exceeds 0.7,
reports a loop exactly when that count reaches 3, and then reports the
most recent action's type as the pattern and the count as the
repetitions. -/
theorem c4_detect_loop (now : ℤ) (actions : List UserAction) :
    (actions.length < 3 → detectLoop now actions = ⟨false, none, none⟩) ∧
    ((loopWindowFilter now actions).length < 3 →
      detectLoop now actions = ⟨false, none, none⟩) ∧
    ∀ mostRecent : UserAction, 3 ≤ actions.length →
      3 ≤ (loopWindowFilter now actions).length →
      (loopWindowFilter now actions).getLast? = some mostRecent →
      ((detectLoop now actions).detected = true ↔
          3 ≤ similarToLastCount mostRecent (loopWindowFilter now actions)) ∧
      (3 ≤ similarToLastCount mostRecent (loopWindowFilter now actions) →
        detectLoop now actions = ⟨true, some mostRecent.type,
          some (similarToLastCount mostRecent (loopWindowFilter now actions))⟩) ∧
      (similarToLastCount mostRecent (loopWindowFilter now actions) < 3 →
        detectLoop now actions = ⟨false, none, none⟩) := by
  refine ⟨?_, ?_, ?_⟩
  · intro h3
    simp [detectLoop, LOOP_THRESHOLD, h3]
  · intro hf
    by_cases h3 : actions.length < 3
    · simp [detectLoop, LOOP_THRESHOLD, h3]
    · simp only [detectLoop, LOOP_THRESHOLD, if_neg (by omega : ¬ actions.length < 3)]
      rw [if_pos hf]
  · intro mostRecent h3 hfl hlast
    have h3' : ¬ actions.length < 3 := by omega
    have hf' : ¬ (loopWindowFilter now actions).length < 3 := by omega
    simp only [detectLoop, LOOP_THRESHOLD, if_neg h3', if_neg hf', hlast]
    by_cases hcnt : 3 ≤ similarToLastCount mostRecent (loopWindowFilter now actions)
    · rw [if_pos hcnt]
      exact ⟨by simp [hcnt], fun _ => rfl, fun hlt => absurd hcnt (by omega)⟩
    · rw [if_neg hcnt]
      exact ⟨by simp [hcnt], fun h => absurd h hcnt, fun _ => rfl⟩

/-- Witness for C4: the spec's example — four identical
`query / "search docs"` actions inside the window produce a detected loop
with pattern `"query"` and 4 repetitions. -/
theorem c4_detect_loop_witness :
    (3 ≤ ([⟨"1", "query", Payload.str "search docs", 0⟩,
        ⟨"2", "query", Payload.str "search docs", 1000⟩,
        ⟨"3", "query", Payload.str "search docs", 2000⟩,
        ⟨"4", "query", Payload.str "search docs", 3000⟩] : List UserAction).length ∧
      3 ≤ (loopWindowFilter 3000 [⟨"1", "query", Payload.str "search docs", 0⟩,
        ⟨"2", "query", Payload.str "search docs", 1000⟩,
        ⟨"3", "query", Payload.str "search docs", 2000⟩,
        ⟨"4", "query", Payload.str "search docs", 3000⟩]).length ∧
      (loopWindowFilter 3000 [⟨"1", "query", Payload.str "search docs", 0⟩,
        ⟨"2", "query", Payload.str "search docs", 1000⟩,
        ⟨"3", "query", Payload.str "search docs", 2000⟩,
        ⟨"4", "query", Payload.str "search docs", 3000⟩]).getLast? =
        some ⟨"4", "query", Payload.str "search docs", 3000⟩ ∧
      3 ≤ similarToLastCount ⟨"4", "query", Payload.str "search docs", 3000⟩
        (loopWindowFilter 3000 [⟨"1", "query", Payload.str "search docs", 0⟩,
          ⟨"2", "query", Payload.str "search docs", 1000⟩,
          ⟨"3", "query", Payload.str "search docs", 2000⟩,
          ⟨"4", "query", Payload.str "search docs", 3000⟩])) ∧
    detectLoop 3000 [⟨"1", "query", Payload.str "search docs", 0⟩,
        ⟨"2", "query", Payload.str "search docs", 1000⟩,
        ⟨"3", "query", Payload.str "search docs", 2000⟩,
        ⟨"4", "query", Payload.str "search docs", 3000⟩] =
      ⟨true, some "query",
        some (similarToLastCount ⟨"4", "query", Payload.str "search docs", 3000⟩
          (loopWindowFilter 3000 [⟨"1", "query", Payload.str "search docs", 0⟩,
            ⟨"2", "query", Payload.str "search docs", 1000⟩,
            ⟨"3", "query", Payload.str "search docs", 2000⟩,
            ⟨"4", "query", Payload.str "search docs", 3000⟩]))⟩ :=
  ⟨⟨by decide, by decide, by decide, by with_unfolding_all decide⟩,
    ((c4_detect_loop 3000 [⟨"1", "query", Payload.str "search docs", 0⟩,
        ⟨"2", "query", Payload.str "search docs", 1000⟩,
        ⟨"3", "query", Payload.str "search docs", 2000⟩,
        ⟨"4", "query", Payload.str "search docs", 3000⟩]).2.2
      ⟨"4", "query", Payload.str "search docs", 3000⟩
      (by decide) (by decide) (by decide)).2.1 (by with_unfolding_all decide)⟩

/-! ## Claims C5, C6 -/

/-- C5: for every pattern of the registry, the search derives its match
confidence from the base `calculatePatternMatchConfidence` score by the
validation-count boost (clamped), then the permanent/high-confidence boost
(clamped), exactly as `specMatchConfidence` states it from the spec's
words, and `shouldApply` holds exactly at confidences of at least 0.85 —
in particular exactly 0.85 applies and 0.8499 does not. -/
theorem c5_match_confidence (input : ZakEchoSearchInput) (registry : List ZakEcho)
    (echo : ZakEcho) (h : echo ∈ registry) :
    ∃ m : ZakEchoMatch,
      m ∈ (searchZakEchoRegistryWith registry input).matches' ∧
      m.echo = echo ∧
      m.matchConfidence =
        specMatchConfidence (calculatePatternMatchConfidence input.userIntent echo.pattern) echo ∧
      (m.shouldApply = true ↔ 0.85 ≤ m.matchConfidence) ∧
      (m.matchConfidence = 0.85 → m.shouldApply = true) ∧
      (m.matchConfidence = 0.8499 → m.shouldApply = false) := by
  refine ⟨matchForEcho input.userIntent echo, ?_, rfl, ?_, ?_, ?_, ?_⟩
  · simp only [searchZakEchoRegistryWith]
    exact ((List.mergeSort_perm (registry.map (matchForEcho input.userIntent))
      confidenceDescending).mem_iff).mpr (List.mem_map_of_mem _ h)
  · by_cases hp : echo.validated = "Pending"
    · have hnone : jsParseInt (jsReplaceFirstX "Pending") = none := by decide
      simp only [matchForEcho, specMatchConfidence, hp, hnone, ne_eq, not_true_eq_false,
        if_false]
    · simp only [matchForEcho, specMatchConfidence, if_pos hp, ne_eq, hp, not_false_eq_true,
        if_true]
  · show decide (0.85 ≤ (matchForEcho input.userIntent echo).matchConfidence) = true ↔ _
    exact decide_eq_true_iff
  · intro heq
    show decide (0.85 ≤ (matchForEcho input.userIntent echo).matchConfidence) = true
    rw [heq]
    exact decide_eq_true le_rfl
  · intro heq
    show decide (0.85 ≤ (matchForEcho input.userIntent echo).matchConfidence) = false
    rw [heq]
    exact decide_eq_false (by norm_num)

/-- Witness for C5 at the first registry entry and the intent
`"continue"`. -/
theorem c5_match_confidence_witness :
    zakEchoRegistry.headI ∈ zakEchoRegistry ∧
    ∃ m : ZakEchoMatch,
      m ∈ (searchZakEchoRegistryWith zakEchoRegistry ⟨"continue", "", ""⟩).matches' ∧
      m.echo = zakEchoRegistry.headI ∧
      m.matchConfidence =
        specMatchConfidence
          (calculatePatternMatchConfidence "continue" zakEchoRegistry.headI.pattern)
          zakEchoRegistry.headI ∧
      (m.shouldApply = true ↔ 0.85 ≤ m.matchConfidence) ∧
      (m.matchConfidence = 0.85 → m.shouldApply = true) ∧
      (m.matchConfidence = 0.8499 → m.shouldApply = false) :=
  ⟨by simp [zakEchoRegistry],
    c5_match_confidence ⟨"continue", "", ""⟩ zakEchoRegistry zakEchoRegistry.headI
      (by simp [zakEchoRegistry])⟩

/-- C6: the search never fails: the empty registry yields empty matches
and null best match and applied pattern; in general the matches are the
per-echo results sorted by descending confidence, `bestMatch` is their
head (null exactly for the empty registry), and `appliedPattern` is the
best match's pattern text precisely when its `shouldApply` flag is set. -/
theorem c6_search_shape (registry : List ZakEcho) (input : ZakEchoSearchInput) :
    (registry = [] → searchZakEchoRegistryWith registry input =
      { matches' := [], bestMatch := none, appliedPattern := none }) ∧
    (searchZakEchoRegistryWith registry input).matches'.Perm
      (registry.map (matchForEcho input.userIntent)) ∧
    (searchZakEchoRegistryWith registry input).matches'.Pairwise
      (fun a b => b.matchConfidence ≤ a.matchConfidence) ∧
    (searchZakEchoRegistryWith registry input).bestMatch =
      (searchZakEchoRegistryWith registry input).matches'.head? ∧
    ((searchZakEchoRegistryWith registry input).bestMatch = none ↔ registry = []) ∧
    (searchZakEchoRegistryWith registry input).appliedPattern =
      (match (searchZakEchoRegistryWith registry input).bestMatch with
        | some best => if best.shouldApply then some best.echo.pattern else none
        | none => none) := by
  have htrans : ∀ a b c : ZakEchoMatch, confidenceDescending a b →
      confidenceDescending b c → confidenceDescending a c := by
    intro a b c hab hbc
    simp only [confidenceDescending, decide_eq_true_eq] at *
    exact le_trans hbc hab
  have htotal : ∀ a b : ZakEchoMatch,
      confidenceDescending a b || confidenceDescending b a := by
    intro a b
    simp only [confidenceDescending, Bool.or_eq_true, decide_eq_true_eq]
    exact le_total b.matchConfidence a.matchConfidence
  refine ⟨?_, ?_, ?_, rfl, ?_, rfl⟩
  · rintro rfl
    simp [searchZakEchoRegistryWith]
  · simp only [searchZakEchoRegistryWith]
    exact List.mergeSort_perm (registry.map (matchForEcho input.userIntent))
      confidenceDescending
  · simp only [searchZakEchoRegistryWith]
    exact (List.sorted_mergeSort htrans htotal
      (registry.map (matchForEcho input.userIntent))).imp
      fun hab => by
        simpa only [confidenceDescending, decide_eq_true_eq] using hab
  · constructor
    · intro hnone
      have hperm := List.mergeSort_perm (registry.map (matchForEcho input.userIntent))
        confidenceDescending
      have hnil : (registry.map (matchForEcho input.userIntent)).mergeSort
          confidenceDescending = [] := List.head?_eq_none_iff.mp hnone
      rw [hnil] at hperm
      exact List.map_eq_nil_iff.mp (List.perm_nil.mp hperm.symm)
    · rintro rfl
      simp [searchZakEchoRegistryWith]

/-- Witness for C6: the spec's empty-input example. -/
theorem c6_search_shape_witness :
    searchZakEchoRegistryWith [] ⟨"", "", ""⟩ =
      { matches' := [], bestMatch := none, appliedPattern := none } :=
  (c6_search_shape [] ⟨"", "", ""⟩).1 rfl
